import Mathlib

/-!
Verification development for the Rocket Pool performance-analysis engine.

The definitions below are a shallow embedding of the Python sources
`rocketpool_analysis_only.py` and `stats/collect_daily_stats.py`:

* integer quantities from the time-series store (rewards, penalties,
  balances in gwei, epochs) are modelled as `Nat`;
* quantities the code manipulates as floats (scores, ETH balances) are
  modelled as `Rat`, which is exact on all inputs the code actually sees
  (the float error is far below every decision boundary involved);
* Python `None` becomes `Option`, JSON dicts become structures, and the
  status strings become the inductive `AttStatus` / `ValStatus`, each
  constructor standing for the exact string produced by the code;
* Python's stable `list.sort` is modelled by `List.insertionSort`, which is
  stable with the same tie behaviour;
* node / minipool addresses and public keys are opaque identifiers,
  modelled as `Nat`.
-/

/-- Status tag of a last-attestation descriptor.  `found` is the string
"found", `foundExtended` is "found_extended", `olderThan n` is
"older_than_{n}_days", `noData` is "no_data" and `fusakaDeath` is
"fusaka_death". -/
inductive AttStatus where
  | found
  | foundExtended
  | olderThan (days : ℕ)
  | noData
  | fusakaDeath
deriving DecidableEq, Repr

/-- Last-attestation descriptor: the dicts built by
`query_attestation_performance`, `find_last_attestation_extended` and
`calculate_node_performance_scores`.  A missing dict key (for example in
the `{'status': 'no_data'}` dict) reads as `none`, matching Python's
`dict.get` returning `None`. -/
structure LastAtt where
  epoch : Option ℕ
  timestamp : Option ℕ
  ageEpochs : Option ℕ
  status : AttStatus
deriving DecidableEq, Repr

/-- Genesis timestamp constant from the source: Dec 1, 2020 12:00:23 UTC. -/
def genesisTimestamp : ℕ := 1606824023

/-- Fusaka hard fork epoch constant `FUSAKA_EPOCH`. -/
def FUSAKA_EPOCH : ℕ := 411392

/-- One row of the aggregated per-validator window query issued by
`query_attestation_performance` (GROUP BY val_id over the window).
`lastAttestationEpoch` is `MAXIf(epoch, att_happened = 1)`, `none` when the
validator had no successful attestation inside the window. -/
structure Row where
  valId : ℕ
  totalEarned : ℕ
  totalMissed : ℕ
  totalPenalties : ℕ
  totalEpochs : ℕ
  successfulAttestations : ℕ
  lastAttestationEpoch : Option ℕ
  valBalance : Option ℕ
  valEffectiveBalance : Option ℕ
deriving DecidableEq, Repr

/-- One row of the extended-history query issued by
`find_last_attestation_extended` over `[oldest_epoch, search_end_epoch]`. -/
structure ExtRow where
  valId : ℕ
  lastAttestationEpoch : Option ℕ
deriving DecidableEq, Repr

/-- A validator of the current batch (entries of the `batch` list in
`query_attestation_performance`, after `get_active_validators` attached
`val_id`). -/
structure BatchValidator where
  valId : ℕ
  nodeAddress : ℕ
  minipoolAddress : ℕ
  pubkey : ℕ
deriving DecidableEq, Repr

/-- Aggregated per-validator record stored in `validator_aggregates`.
`performanceScore` is `some 0` for the preset 0% score and `none` for
Python `None`. -/
structure PerfRecord where
  valId : ℕ
  nodeAddress : ℕ
  minipoolAddress : ℕ
  pubkey : ℕ
  totalEarnedRewards : ℕ
  totalMissedRewards : ℕ
  totalPenalties : ℕ
  totalPossibleRewards : ℕ
  totalLost : ℕ
  totalEpochs : ℕ
  successfulAttestations : ℕ
  performanceScore : Option ℚ
  lastAttestation : LastAtt
  valBalance : ℕ
  valBalanceEth : ℚ
deriving DecidableEq, Repr

/-- Validators collected for the extended search: the `val_id`s of the rows
whose windowed `last_attestation_epoch` is NULL, in row order
(`validators_needing_extended_search` in the source). -/
def validatorsNeedingExtendedSearch (rows : List Row) : List ℕ :=
  (rows.filter fun row => decide (row.lastAttestationEpoch = none)).map
    fun row => row.valId

/-- Shallow embedding of `find_last_attestation_extended`: the store rows
for the extended range are given as `extRows`; the SQL `IN` clause keeps
only the requested `valIds`.  Produces the `extended_attestations` map as
an association list. -/
def findLastAttestationExtended (valIds : List ℕ) (extRows : List ExtRow)
    (oldestEpoch newestEpoch : ℕ) : List (ℕ × LastAtt) :=
  (extRows.filter fun r => decide (r.valId ∈ valIds)).map fun r =>
    match r.lastAttestationEpoch with
    | some e =>
        (r.valId,
          { epoch := some e
            timestamp := some (genesisTimestamp + e * 32 * 12)
            ageEpochs := some (newestEpoch - e)
            status := AttStatus.foundExtended })
    | none =>
        (r.valId,
          { epoch := none, timestamp := none, ageEpochs := none
            status := AttStatus.olderThan ((newestEpoch - oldestEpoch) / 225) })

/-- Day count of the fallback "older_than" status when the extended search
returned nothing for a validator: Python
`f'older_than_{total_days or 10}_days' if total_days else 'older_than_10_days'`,
so any falsy `total_days` (None or 0) becomes 10. -/
def fallbackDays (totalDays : Option ℕ) : ℕ :=
  match totalDays with
  | some d => if d = 0 then 10 else d
  | none => 10

/-- Descriptor chosen for one row in `query_attestation_performance`:
the window descriptor when the row has an in-window attestation, otherwise
the extended-search result, otherwise the fallback status. -/
def lastAttInfoFor (row : Row) (extendedAtts : List (ℕ × LastAtt))
    (totalDays : Option ℕ) (endEpoch : ℕ) : LastAtt :=
  match row.lastAttestationEpoch with
  | some e =>
      { epoch := some e
        timestamp := some (genesisTimestamp + e * 32 * 12)
        ageEpochs := some (endEpoch - e)
        status := AttStatus.found }
  | none =>
      match extendedAtts.lookup row.valId with
      | some att => att
      | none =>
          { epoch := none, timestamp := none, ageEpochs := none
            status := AttStatus.olderThan (fallbackDays totalDays) }

/-- The `extended_attestations` map of one batch: the extended search is
run only when some validator needs it and the store's oldest retained
epoch is known. -/
def extendedAttsFor (rows : List Row) (extRows : List ExtRow)
    (oldestEpoch : Option ℕ) (latestEpoch : ℕ) : List (ℕ × LastAtt) :=
  match oldestEpoch with
  | some oldest =>
      if validatorsNeedingExtendedSearch rows = [] then []
      else findLastAttestationExtended (validatorsNeedingExtendedSearch rows)
        extRows oldest latestEpoch
  | none => []

/-- The aggregate record built for one row, given the matched batch
validator (`next(v for v in batch if v['val_id'] == val_id)`). -/
def mkAggRecord (row : Row) (v : BatchValidator)
    (extendedAtts : List (ℕ × LastAtt)) (totalDays : Option ℕ)
    (endEpoch : ℕ) : PerfRecord :=
  { valId := row.valId
    nodeAddress := v.nodeAddress
    minipoolAddress := v.minipoolAddress
    pubkey := v.pubkey
    totalEarnedRewards := row.totalEarned
    totalMissedRewards := row.totalMissed
    totalPenalties := row.totalPenalties
    totalPossibleRewards := row.totalEarned + row.totalMissed
    totalLost := row.totalMissed + row.totalPenalties
    totalEpochs := row.totalEpochs
    successfulAttestations := row.successfulAttestations
    performanceScore :=
      if row.lastAttestationEpoch = none then some 0 else none
    lastAttestation := lastAttInfoFor row extendedAtts totalDays endEpoch
    valBalance := row.valBalance.getD 0
    valBalanceEth := ((row.valBalance.getD 0 : ℕ) : ℚ) / 1000000000 }

/-- Shallow embedding of one batch of `query_attestation_performance`:
rows whose `val_id` has no matching batch validator are dropped (the
`next(..., None)` lookup fails), all others yield one aggregate record. -/
def processBatch (rows : List Row) (batch : List BatchValidator)
    (extRows : List ExtRow) (oldestEpoch totalDays : Option ℕ)
    (endEpoch latestEpoch : ℕ) : List PerfRecord :=
  rows.filterMap fun row =>
    match batch.find? (fun v => decide (v.valId = row.valId)) with
    | some v =>
        some (mkAggRecord row v
          (extendedAttsFor rows extRows oldestEpoch latestEpoch)
          totalDays endEpoch)
    | none => none

/-- Banker's rounding to an integer, the semantics of Python's `round`:
ties go to the even neighbour. -/
def roundHalfEven (q : ℚ) : ℤ :=
  if q - ⌊q⌋ < 1/2 then ⌊q⌋
  else if 1/2 < q - ⌊q⌋ then ⌊q⌋ + 1
  else if ⌊q⌋ % 2 = 0 then ⌊q⌋ else ⌊q⌋ + 1

/-- Python `round(x, 2)`. -/
def round2 (q : ℚ) : ℚ := ((roundHalfEven (q * 100) : ℤ) : ℚ) / 100

/-- One entry of the full Rocket Pool validator roster handed to
`calculate_node_performance_scores` as `all_rp_validators` (used only for
its `node_address`). -/
structure RosterEntry where
  nodeAddress : ℕ
deriving DecidableEq, Repr

/-- One entry of the persistent `fusaka_deaths.json` validators list. -/
structure FusakaEntry where
  nodeAddress : ℕ
  epoch : ℕ
  timestamp : ℕ
deriving DecidableEq, Repr

/-- Node record appended to `node_scores`.  `performanceScore = none` is
the "N/A" sentinel for nodes with no active validators.  The
delegate-status and balance-statistics fields of the source record are
omitted: no claim refers to them and they feed nothing modelled here. -/
structure NodeScore where
  nodeAddress : ℕ
  totalMinipools : ℕ
  activeMinipools : ℕ
  exitedMinipools : ℤ
  performanceScore : Option ℚ
  totalEarnedRewards : ℕ
  totalMissedRewards : ℕ
  totalPenalties : ℕ
  totalLost : ℕ
  totalPossibleRewards : ℕ
  lastAttestation : LastAtt
  isBackUp : Bool
  validatorsBelow32Eth : ℕ
deriving DecidableEq, Repr

/-- Keys of a Python dict built by repeated insertion: first-occurrence
order, no duplicates (the iteration order of `node_minipool_counts`). -/
def dictKeys (l : List ℕ) : List ℕ :=
  l.foldl (fun acc a => if a ∈ acc then acc else acc ++ [a]) []

/-- Records of `performance_data` belonging to one node. -/
def recordsFor (pd : List PerfRecord) (addr : ℕ) : List PerfRecord :=
  pd.filter fun r => decide (r.nodeAddress = addr)

/-- Size of the `active_validators` set accumulated for a node: the number
of distinct `val_id`s among the node's performance records. -/
def activeCountFor (pd : List PerfRecord) (addr : ℕ) : ℕ :=
  ((recordsFor pd addr).map fun r => r.valId).dedup.length

/-- Sum of `total_earned_rewards` over a node's records. -/
def earnedFor (pd : List PerfRecord) (addr : ℕ) : ℕ :=
  ((recordsFor pd addr).map fun r => r.totalEarnedRewards).sum

/-- Sum of `total_missed_rewards` over a node's records. -/
def missedFor (pd : List PerfRecord) (addr : ℕ) : ℕ :=
  ((recordsFor pd addr).map fun r => r.totalMissedRewards).sum

/-- Sum of `total_penalties` over a node's records. -/
def penaltiesFor (pd : List PerfRecord) (addr : ℕ) : ℕ :=
  ((recordsFor pd addr).map fun r => r.totalPenalties).sum

/-- Sum of `total_possible_rewards` over a node's records. -/
def possibleFor (pd : List PerfRecord) (addr : ℕ) : ℕ :=
  ((recordsFor pd addr).map fun r => r.totalPossibleRewards).sum

/-- Sum of `total_lost` over a node's records. -/
def lostFor (pd : List PerfRecord) (addr : ℕ) : ℕ :=
  ((recordsFor pd addr).map fun r => r.totalLost).sum

/-- Number of roster validators owned by a node (`total` minipool count). -/
def totalMinipoolsFor (roster : List RosterEntry) (addr : ℕ) : ℕ :=
  (roster.filter fun v => decide (v.nodeAddress = addr)).length

/-- Test for the `zero_score_validators` list being nonempty: some record
of the node carries the preset windowed 0% score. -/
def hasZeroScoreValidator (pd : List PerfRecord) (addr : ℕ) : Bool :=
  (recordsFor pd addr).any fun r => decide (r.performanceScore = some 0)

/-- Node performance score, lines 525-539 of the source: "N/A" (`none`)
without active validators; 0.0 when any validator has the preset 0% score;
otherwise `round(earned / possible * 100, 2)` with 0 for an empty
denominator. -/
def nodeScoreValue (pd : List PerfRecord) (addr : ℕ) : Option ℚ :=
  if 0 < activeCountFor pd addr then
    if hasZeroScoreValidator pd addr then some 0
    else some (round2
      (if 0 < possibleFor pd addr then
        ((earnedFor pd addr : ℕ) : ℚ) / ((possibleFor pd addr : ℕ) : ℚ) * 100
      else 0))
  else none

/-- True for the statuses `found` and `found_extended`. -/
def isFoundStatus : AttStatus → Bool
  | AttStatus.found => true
  | AttStatus.foundExtended => true
  | _ => false

/-- True for the `older_than_*` statuses. -/
def isOlderStatus : AttStatus → Bool
  | AttStatus.olderThan _ => true
  | _ => false

/-- Key used by `max(valid_attestations, key=lambda x: x['epoch'])`. -/
def epochKey (a : LastAtt) : ℕ := a.epoch.getD 0

/-- Key used by the `older_than_*` max: the parsed day count, 10 when the
status does not parse (unreachable for the statuses actually produced). -/
def daysKey (a : LastAtt) : ℕ :=
  match a.status with
  | AttStatus.olderThan n => n
  | _ => 10

/-- Python `max(it, key=k)`: fold keeping the first element of maximal
key (a later element replaces the current best only when strictly
greater). -/
def maxByKeyFirst (key : LastAtt → ℕ) (a : LastAtt) (l : List LastAtt) :
    LastAtt :=
  l.foldl (fun best x => if key best < key x then x else best) a

/-- The `{'status': 'no_data'}` dict. -/
def noDataAtt : LastAtt :=
  { epoch := none, timestamp := none, ageEpochs := none
    status := AttStatus.noData }

/-- The `{'status': 'older_than_10_days'}` fallback dict. -/
def olderThan10Att : LastAtt :=
  { epoch := none, timestamp := none, ageEpochs := none
    status := AttStatus.olderThan 10 }

/-- Shallow embedding of `get_node_last_attestation`, following the
source's branch structure: empty input gives no_data; with found
descriptors, the max-by-epoch over those carrying an epoch (first of the
list when none carries one); otherwise the max-by-day-count over the
older_than descriptors; otherwise the older_than_10_days fallback. -/
def getNodeLastAttestation (atts : List LastAtt) : LastAtt :=
  if atts = [] then noDataAtt
  else
    let found := atts.filter fun a => isFoundStatus a.status
    if found = [] then
      let older := atts.filter fun a => isOlderStatus a.status
      if older = [] then olderThan10Att
      else maxByKeyFirst daysKey (older.headD noDataAtt) older.tail
    else
      let valid := found.filter fun a => a.epoch.isSome
      if valid = [] then found.headD noDataAtt
      else maxByKeyFirst epochKey (valid.headD noDataAtt) valid.tail

/-- Descriptor computed for a node before any Fusaka override. -/
def computedLastAttFor (pd : List PerfRecord) (addr : ℕ) : LastAtt :=
  getNodeLastAttestation ((recordsFor pd addr).map fun r => r.lastAttestation)

/-- Recovery test for a tracked node, lines 552-554 of the source: status
`found`/`found_extended`, a non-null epoch, and that epoch strictly past
the fork. -/
def fusakaRecovered (att : LastAtt) : Bool :=
  isFoundStatus att.status &&
    match att.epoch with
    | some e => decide (FUSAKA_EPOCH < e)
    | none => false

/-- The fixed `fusaka_death` descriptor a still-tracked node is reported
with: pinned at the fork epoch, keeping the current age. -/
def fusakaDeathAtt (currentAge : Option ℕ) : LastAtt :=
  { epoch := some FUSAKA_EPOCH
    timestamp := some (genesisTimestamp + FUSAKA_EPOCH * 32 * 12)
    ageEpochs := currentAge
    status := AttStatus.fusakaDeath }

/-- Reported node descriptor after the Fusaka-death check. -/
def reportedLastAttFor (fusAddrs : List ℕ) (pd : List PerfRecord)
    (addr : ℕ) : LastAtt :=
  let att := computedLastAttFor pd addr
  if addr ∈ fusAddrs then
    if fusakaRecovered att then att else fusakaDeathAtt att.ageEpochs
  else att

/-- The `is_back_up` flag: numeric score strictly positive, descriptor
`found`/`found_extended`, non-null age at most 3 epochs. -/
def isBackUpFor (fusAddrs : List ℕ) (pd : List PerfRecord) (addr : ℕ) :
    Bool :=
  (match nodeScoreValue pd addr with
    | some q => decide (0 < q)
    | none => false) &&
  isFoundStatus (reportedLastAttFor fusAddrs pd addr).status &&
  (match (reportedLastAttFor fusAddrs pd addr).ageEpochs with
    | some ag => decide (ag ≤ 3)
    | none => false)

/-- The node record appended to `node_scores` for one node address. -/
def mkNodeScore (pd : List PerfRecord) (roster : List RosterEntry)
    (fusAddrs : List ℕ) (addr : ℕ) : NodeScore :=
  { nodeAddress := addr
    totalMinipools := totalMinipoolsFor roster addr
    activeMinipools := activeCountFor pd addr
    exitedMinipools :=
      (totalMinipoolsFor roster addr : ℤ) - (activeCountFor pd addr : ℤ)
    performanceScore := nodeScoreValue pd addr
    totalEarnedRewards := earnedFor pd addr
    totalMissedRewards := missedFor pd addr
    totalPenalties := penaltiesFor pd addr
    totalLost := lostFor pd addr
    totalPossibleRewards := possibleFor pd addr
    lastAttestation := reportedLastAttFor fusAddrs pd addr
    isBackUp := isBackUpFor fusAddrs pd addr
    validatorsBelow32Eth :=
      (recordsFor pd addr).countP fun r => decide (r.valBalanceEth < 31.9) }

/-- Sort key of the final `node_scores.sort`: "N/A" maps to -1, a numeric
score to itself. -/
def nodeSortKey (x : NodeScore) : ℚ :=
  match x.performanceScore with
  | none => -1
  | some q => q

/-- Order relation of the descending stable sort (`reverse=True`). -/
def nodeDescRel (a b : NodeScore) : Prop := nodeSortKey b ≤ nodeSortKey a

instance : DecidableRel nodeDescRel := fun a b =>
  inferInstanceAs (Decidable (nodeSortKey b ≤ nodeSortKey a))

instance : IsTotal NodeScore nodeDescRel :=
  ⟨fun a b => le_total (nodeSortKey b) (nodeSortKey a)⟩

instance : IsTrans NodeScore nodeDescRel :=
  ⟨fun _ _ _ h1 h2 => le_trans h2 h1⟩

/-- Node addresses touched by the rollup: keys of `node_minipool_counts`,
in first-appearance order over the roster. -/
def nodeAddrsOf (roster : List RosterEntry) : List ℕ :=
  dictKeys (roster.map fun v => v.nodeAddress)

/-- Nodes collected in `validators_to_remove`: tracked nodes whose
computed descriptor shows qualifying post-fork activity. -/
def nodesToRemove (pd : List PerfRecord) (roster : List RosterEntry)
    (fusAddrs : List ℕ) : List ℕ :=
  (nodeAddrsOf roster).filter fun addr =>
    decide (addr ∈ fusAddrs) && fusakaRecovered (computedLastAttFor pd addr)

/-- Shallow embedding of `calculate_node_performance_scores` with no
threshold filter: the sorted node list together with the updated Fusaka
deaths list.  The source mutates `fusaka_deaths` only when some node
recovered, and then keeps exactly the entries whose address did not
recover. -/
def calculateNodePerformanceScores (pd : List PerfRecord)
    (roster : List RosterEntry) (fus : List FusakaEntry) :
    List NodeScore × List FusakaEntry :=
  let fusAddrs := fus.map fun v => v.nodeAddress
  let scores := (nodeAddrsOf roster).map (mkNodeScore pd roster fusAddrs)
  let toRemove := nodesToRemove pd roster fusAddrs
  let fusOut :=
    if toRemove = [] then fus
    else fus.filter fun v => decide (v.nodeAddress ∉ toRemove)
  (List.insertionSort nodeDescRel scores, fusOut)

/-- Validator lifecycle status strings returned by the store. -/
inductive ValStatus where
  | activeOngoing
  | activeExiting
  | activeSlashed
  | exitedUnslashed
  | exitedSlashed
  | withdrawalPossible
  | withdrawalDone
  | notInDatabase
  | unknown
deriving DecidableEq, Repr

/-- One filtered row of the 7-day snapshot performance query in
`query_7day_performance`: `latestBalance` is `MAX(val_balance)` over the
window (0 after the `or 0` fallback). -/
structure SnapPerf where
  valId : ℕ
  totalEarned : ℕ
  totalMissed : ℕ
  totalPenalties : ℕ
  successfulAttestations : ℕ
  totalEpochs : ℕ
  lastAttestationEpoch : Option ℕ
  latestBalance : ℕ
deriving DecidableEq, Repr

/-- Balance in ETH as computed by `calculate_snapshot_metrics`:
`perf['latest_balance'] / 1_000_000_000`. -/
def snapBalanceEth (p : SnapPerf) : ℚ := ((p.latestBalance : ℕ) : ℚ) / 1000000000

/-- Status counted as active by the snapshot metrics. -/
def isSnapActive : ValStatus → Bool
  | ValStatus.activeOngoing => true
  | ValStatus.activeExiting => true
  | ValStatus.activeSlashed => true
  | _ => false

/-- Status counted as exited by the snapshot metrics. -/
def isSnapExited : ValStatus → Bool
  | ValStatus.exitedUnslashed => true
  | ValStatus.exitedSlashed => true
  | ValStatus.withdrawalPossible => true
  | ValStatus.withdrawalDone => true
  | _ => false

/-- The snapshot metric fields the claims refer to.  The remaining
network-wide counters of `calculate_snapshot_metrics` (reward totals,
performance bands, per-node scores) are independent of these fields and
are not needed by any claim. -/
structure SnapshotMetrics where
  below31_9Eth : ℕ
  activeMinipools : ℕ
  exitedMinipools : ℕ
  fusakaDeaths : ℕ
  startEpoch : ℕ
  endEpoch : ℕ
deriving DecidableEq, Repr

/-- Shallow embedding of the parts of `calculate_snapshot_metrics` the
claims touch.  The undercollateralisation count (lines 418-423) scans all
performance rows and requires `balance_eth < 31.9 and balance_eth > 0`. -/
def calculateSnapshotMetrics (performanceData : List SnapPerf)
    (validatorStatuses : List (ℕ × ValStatus)) (fusakaDeathCount : ℕ)
    (endEpoch : ℕ) : SnapshotMetrics :=
  { below31_9Eth := performanceData.countP fun p =>
      decide (snapBalanceEth p < 31.9) && decide (0 < snapBalanceEth p)
    activeMinipools := validatorStatuses.countP fun vs => isSnapActive vs.2
    exitedMinipools := validatorStatuses.countP fun vs => isSnapExited vs.2
    fusakaDeaths := fusakaDeathCount
    startEpoch := endEpoch - 1575 + 1
    endEpoch := endEpoch }

/-- One daily snapshot of `stats_history.json`.  The calendar date is an
abstract totally ordered key (ISO date strings of equal length compare
lexicographically exactly as dates do). -/
structure Snapshot where
  date : ℕ
  timestamp : ℕ
  metrics : SnapshotMetrics
deriving DecidableEq, Repr

/-- The stats history file: metadata plus the snapshots list. -/
structure StatsHistory where
  metadataCreatedAt : ℕ
  metadataLastUpdated : ℕ
  metadataTotalSnapshots : ℕ
  snapshots : List Snapshot
deriving DecidableEq, Repr

/-- Ascending-by-date relation of `snapshots.sort(key=lambda s: s['date'])`. -/
def snapDateRel (a b : Snapshot) : Prop := a.date ≤ b.date

instance : DecidableRel snapDateRel := fun a b =>
  inferInstanceAs (Decidable (a.date ≤ b.date))

instance : IsTotal Snapshot snapDateRel := ⟨fun a b => Nat.le_total a.date b.date⟩

instance : IsTrans Snapshot snapDateRel := ⟨fun _ _ _ => Nat.le_trans⟩

/-- Shallow embedding of `append_snapshot`: drop any stored snapshot with
the new snapshot's date, append, re-sort stably by date, refresh the
metadata.  `now` stands for `datetime.now()`. -/
def appendSnapshot (h : StatsHistory) (s : Snapshot) (now : ℕ) :
    StatsHistory :=
  let snaps := (h.snapshots.filter fun t => decide (t.date ≠ s.date)) ++ [s]
  let sorted := List.insertionSort snapDateRel snaps
  { metadataCreatedAt := h.metadataCreatedAt
    metadataLastUpdated := now
    metadataTotalSnapshots := sorted.length
    snapshots := sorted }

/-- Days from 1970-01-01 of the civil date y-m-d (proleptic Gregorian,
valid for years ≥ 1; the standard civil-from-days arithmetic used by the
Python `datetime` library the source delegates to). -/
def daysFromCivil (y m d : ℕ) : ℤ :=
  let yAdj := if m ≤ 2 then y - 1 else y
  let era := yAdj / 400
  let yoe := yAdj % 400
  let doy := (153 * ((m + 9) % 12) + 2) / 5 + (d - 1)
  let doe := yoe * 365 + yoe / 4 - yoe / 100 + doy
  (era * 146097 + doe : ℕ) - 719468

/-- Shallow embedding of `date_to_end_epoch`: the Unix timestamp of the
target date at 23:59:59 UTC, minus genesis, divided by 384 seconds with
Python `int()` semantics, i.e. truncation toward zero (`Int.tdiv`). -/
def dateToEndEpoch (y m d : ℕ) : ℤ :=
  let targetTimestamp : ℤ := daysFromCivil y m d * 86400 + 86399
  let secondsSinceGenesis : ℤ := targetTimestamp - genesisTimestamp
  Int.tdiv secondsSinceGenesis 384

theorem orderedInsert_of_forall_rel {α : Type} {r : α → α → Prop}
    [DecidableRel r] {a : α} {l : List α} (h : ∀ c ∈ l, r a c) :
    List.orderedInsert r a l = a :: l := by
  cases l with
  | nil => rfl
  | cons b t => simp [List.orderedInsert, h b (List.mem_cons_self b t)]

theorem orderedInsert_comm {α : Type} {r : α → α → Prop} [DecidableRel r]
    [IsTrans α r] {a b : α} (hba : r b a) (hab : ¬ r a b) :
    ∀ l : List α, List.orderedInsert r b (List.orderedInsert r a l) =
      List.orderedInsert r a (List.orderedInsert r b l) := by
  intro l
  induction l with
  | nil => simp [List.orderedInsert, hba, hab]
  | cons c t ih =>
    by_cases hac : r a c
    · have hbc : r b c := IsTrans.trans b a c hba hac
      simp [List.orderedInsert, hac, hbc, hba, hab]
    · by_cases hbc : r b c
      · simp [List.orderedInsert, hac, hbc, hab]
      · simp only [List.orderedInsert, if_neg hac, if_neg hbc]
        rw [ih]

theorem insertionSort_orderedInsert_append {α : Type} {r : α → α → Prop}
    [DecidableRel r] [IsTrans α r] [IsTotal α r] (a : α) :
    ∀ (l l₂ : List α),
      List.insertionSort r (List.orderedInsert r a l ++ l₂) =
        List.insertionSort r (a :: (l ++ l₂)) := by
  intro l
  induction l with
  | nil => intro l₂; rfl
  | cons c t ih =>
    intro l₂
    by_cases hac : r a c
    · simp [List.orderedInsert, hac]
    · have hca : r c a := (IsTotal.total c a).resolve_right hac
      simp only [List.orderedInsert, if_neg hac, List.cons_append,
        List.insertionSort]
      rw [ih l₂]
      simp only [List.insertionSort, List.cons_append]
      exact orderedInsert_comm hca hac _

theorem insertionSort_sort_append {α : Type} {r : α → α → Prop}
    [DecidableRel r] [IsTrans α r] [IsTotal α r] :
    ∀ (l l₂ : List α),
      List.insertionSort r (List.insertionSort r l ++ l₂) =
        List.insertionSort r (l ++ l₂) := by
  intro l
  induction l with
  | nil => intro l₂; rfl
  | cons a t ih =>
    intro l₂
    show List.insertionSort r
      (List.orderedInsert r a (List.insertionSort r t) ++ l₂) = _
    rw [insertionSort_orderedInsert_append]
    simp only [List.insertionSort, List.cons_append]
    rw [ih l₂]
    rfl

theorem filter_orderedInsert {α : Type} {r : α → α → Prop} [DecidableRel r]
    [IsTrans α r] (p : α → Bool) (a : α) :
    ∀ l : List α, List.Sorted r l →
      (List.orderedInsert r a l).filter p =
        if p a = true then List.orderedInsert r a (l.filter p)
        else l.filter p := by
  intro l
  induction l with
  | nil =>
    intro _
    by_cases hpa : p a = true <;> simp [List.orderedInsert, hpa]
  | cons b t ih =>
    intro hs
    obtain ⟨hbt, ht⟩ := List.sorted_cons.mp hs
    by_cases hab : r a b
    · have hall : ∀ c ∈ (b :: t).filter p, r a c := by
        intro c hc
        have hc2 := (List.mem_filter.mp hc).1
        rcases List.mem_cons.mp hc2 with h | h
        · exact h ▸ hab
        · exact IsTrans.trans a b c hab (hbt c h)
      by_cases hpa : p a = true
      · rw [if_pos hpa, orderedInsert_of_forall_rel hall]
        simp [List.orderedInsert, hab, List.filter_cons, hpa]
      · rw [if_neg hpa]
        simp [List.orderedInsert, hab, List.filter_cons, hpa]
    · simp only [List.orderedInsert, if_neg hab, List.filter_cons]
      rw [ih ht]
      by_cases hpb : p b = true <;> by_cases hpa : p a = true <;>
        simp [hpb, hpa, List.orderedInsert, if_neg hab, List.filter_cons]

theorem filter_insertionSort {α : Type} {r : α → α → Prop} [DecidableRel r]
    [IsTrans α r] [IsTotal α r] (p : α → Bool) :
    ∀ l : List α,
      (List.insertionSort r l).filter p = List.insertionSort r (l.filter p) := by
  intro l
  induction l with
  | nil => rfl
  | cons a t ih =>
    show (List.orderedInsert r a (List.insertionSort r t)).filter p = _
    rw [filter_orderedInsert p a _ (List.sorted_insertionSort r t), ih]
    by_cases hpa : p a = true
    · rw [if_pos hpa]
      simp [List.filter_cons, hpa, List.insertionSort]
    · rw [if_neg hpa]
      simp [List.filter_cons, hpa]

theorem countP_date_filter_ne (d : ℕ) (l : List Snapshot) :
    (l.filter fun t => decide (t.date ≠ d)).countP
      (fun t => decide (t.date = d)) = 0 := by
  rw [List.countP_filter, List.countP_eq_zero]
  intro a _
  by_cases h : a.date = d <;> simp [h]

theorem maxByKeyFirst_mem (key : LastAtt → ℕ) :
    ∀ (l : List LastAtt) (a : LastAtt), maxByKeyFirst key a l ∈ a :: l := by
  intro l
  induction l with
  | nil => intro a; simp [maxByKeyFirst]
  | cons x t ih =>
    intro a
    show maxByKeyFirst key (if key a < key x then x else a) t ∈ a :: x :: t
    rcases List.mem_cons.mp (ih (if key a < key x then x else a)) with h | h
    · rw [h]
      by_cases hx : key a < key x <;> simp [hx]
    · simp [h]

theorem maxByKeyFirst_le (key : LastAtt → ℕ) :
    ∀ (l : List LastAtt) (a : LastAtt), ∀ y ∈ a :: l,
      key y ≤ key (maxByKeyFirst key a l) := by
  intro l
  induction l with
  | nil =>
    intro a y hy
    rcases List.mem_cons.mp hy with h | h
    · rw [h]; exact le_refl _
    · cases h
  | cons x t ih =>
    intro a y hy
    show key y ≤ key (maxByKeyFirst key (if key a < key x then x else a) t)
    have ha : key a ≤ key (if key a < key x then x else a) := by
      by_cases hx : key a < key x <;> simp [hx]
      exact le_of_lt hx
    have hx2 : key x ≤ key (if key a < key x then x else a) := by
      by_cases hx : key a < key x <;> simp [hx]
      exact le_of_not_lt hx
    have hhead : key (if key a < key x then x else a) ≤
        key (maxByKeyFirst key (if key a < key x then x else a) t) :=
      ih _ _ (List.mem_cons_self _ _)
    rcases List.mem_cons.mp hy with h | h
    · rw [h]; exact le_trans ha hhead
    · rcases List.mem_cons.mp h with h2 | h2
      · rw [h2]; exact le_trans hx2 hhead
      · exact ih _ y (List.mem_cons_of_mem _ h2)

theorem mem_nodeScores {pd : List PerfRecord} {roster : List RosterEntry}
    {fus : List FusakaEntry} {rec : NodeScore} :
    rec ∈ (calculateNodePerformanceScores pd roster fus).1 ↔
      ∃ addr ∈ nodeAddrsOf roster,
        rec = mkNodeScore pd roster (fus.map fun v => v.nodeAddress) addr := by
  show rec ∈ List.insertionSort nodeDescRel _ ↔ _
  rw [(List.perm_insertionSort nodeDescRel _).mem_iff, List.mem_map]
  constructor
  · rintro ⟨addr, h1, h2⟩
    exact ⟨addr, h1, h2.symm⟩
  · rintro ⟨addr, h1, h2⟩
    exact ⟨addr, h1, h2.symm⟩

theorem roundHalfEven_nonneg {q : ℚ} (h : 0 ≤ q) : 0 ≤ roundHalfEven q := by
  unfold roundHalfEven
  have hf : (0 : ℤ) ≤ ⌊q⌋ := Int.floor_nonneg.mpr h
  split_ifs <;> omega

theorem round2_nonneg {q : ℚ} (h : 0 ≤ q) : 0 ≤ round2 q := by
  unfold round2
  have h2 := @roundHalfEven_nonneg (q * 100) (by positivity)
  have h3 : (0 : ℚ) ≤ ((roundHalfEven (q * 100) : ℤ) : ℚ) := by
    exact_mod_cast h2
  have h4 : (0 : ℚ) ≤ 100 := by norm_num
  exact div_nonneg h3 h4

theorem nodeScoreValue_shape (pd : List PerfRecord) (addr : ℕ) :
    nodeScoreValue pd addr = none ∨
      ∃ q, nodeScoreValue pd addr = some q ∧ 0 ≤ q := by
  unfold nodeScoreValue
  by_cases h1 : 0 < activeCountFor pd addr
  · rw [if_pos h1]
    by_cases h2 : hasZeroScoreValidator pd addr = true
    · simp only [h2, if_true]
      exact Or.inr ⟨0, rfl, le_refl 0⟩
    · simp only [h2, if_false]
      refine Or.inr ⟨_, rfl, round2_nonneg ?_⟩
      by_cases h3 : 0 < possibleFor pd addr
      · rw [if_pos h3]
        positivity
      · rw [if_neg h3]
  · rw [if_neg h1]
    exact Or.inl rfl

theorem sum_possible_split : ∀ l : List PerfRecord,
    (∀ r ∈ l, r.totalPossibleRewards =
      r.totalEarnedRewards + r.totalMissedRewards) →
    (l.map fun r => r.totalPossibleRewards).sum =
      (l.map fun r => r.totalEarnedRewards).sum +
        (l.map fun r => r.totalMissedRewards).sum := by
  intro l
  induction l with
  | nil => intro _; rfl
  | cons a t ih =>
    intro h
    have ha := h a (List.mem_cons_self a t)
    have ht := ih fun r hr => h r (List.mem_cons_of_mem a hr)
    simp only [List.map_cons, List.sum_cons, ha, ht]
    omega

theorem possibleFor_eq_earned_add_missed {pd : List PerfRecord} {addr : ℕ}
    (h : ∀ r ∈ pd, r.totalPossibleRewards =
      r.totalEarnedRewards + r.totalMissedRewards) :
    possibleFor pd addr = earnedFor pd addr + missedFor pd addr :=
  sum_possible_split (recordsFor pd addr)
    fun r hr => h r (List.mem_filter.mp hr).1

/-- C9: after every call to append_snapshot the history's metadata field
total_snapshots equals the length of the snapshots list. -/
theorem c9_metadata_total_snapshots (h : StatsHistory) (s : Snapshot)
    (now : ℕ) :
    (appendSnapshot h s now).metadataTotalSnapshots =
      (appendSnapshot h s now).snapshots.length := rfl

/-- C3: appending a snapshot leaves exactly one entry for its date (the
new one), keeps the list sorted ascending by date, and appending twice for
the same date equals appending once with the second run's values. -/
theorem c3_snapshot_idempotence (h : StatsHistory) (s s1 s2 : Snapshot)
    (n n1 n2 : ℕ) (hd : s1.date = s2.date) :
    ((appendSnapshot h s n).snapshots.countP
        (fun t => decide (t.date = s.date)) = 1 ∧
      s ∈ (appendSnapshot h s n).snapshots ∧
      (appendSnapshot h s n).snapshots.Pairwise snapDateRel) ∧
    appendSnapshot (appendSnapshot h s1 n1) s2 n2 = appendSnapshot h s2 n2 := by
  constructor
  · refine ⟨?_, ?_, ?_⟩
    · show (List.insertionSort snapDateRel _).countP _ = 1
      rw [(List.perm_insertionSort snapDateRel _).countP_eq,
        List.countP_append, countP_date_filter_ne]
      simp
    · apply (List.perm_insertionSort snapDateRel _).mem_iff.mpr
      simp
    · exact List.sorted_insertionSort snapDateRel _
  · have hfilter :
        List.filter (fun t => decide (t.date ≠ s2.date))
            (List.insertionSort snapDateRel
              ((h.snapshots.filter fun t => decide (t.date ≠ s1.date)) ++ [s1])) =
          List.insertionSort snapDateRel
            (h.snapshots.filter fun t => decide (t.date ≠ s2.date)) := by
      rw [filter_insertionSort, List.filter_append, List.filter_filter]
      have h1 : List.filter (fun t => decide (t.date ≠ s2.date)) [s1] =
          ([] : List Snapshot) := by simp [hd]
      have h2 : (fun a : Snapshot =>
          decide (a.date ≠ s2.date) && decide (a.date ≠ s1.date)) =
          fun a : Snapshot => decide (a.date ≠ s2.date) := by
        funext a
        rw [hd]
        by_cases hda : a.date = s2.date <;> simp [hda]
      rw [h1, h2, List.append_nil]
    simp only [appendSnapshot]
    rw [hfilter, insertionSort_sort_append]

/-- C3 witness at concrete input: a one-snapshot history, a snapshot for a
new date, and two snapshots sharing a date. -/
theorem c3_snapshot_idempotence_witness :
    ((appendSnapshot (StatsHistory.mk 0 0 1 [Snapshot.mk 4 0 ⟨0, 0, 0, 0, 0, 0⟩])
        (Snapshot.mk 3 1 ⟨1, 2, 3, 4, 5, 6⟩) 7).snapshots.countP
        (fun t => decide (t.date = (Snapshot.mk 3 1 ⟨1, 2, 3, 4, 5, 6⟩).date)) = 1 ∧
      Snapshot.mk 3 1 ⟨1, 2, 3, 4, 5, 6⟩ ∈
        (appendSnapshot (StatsHistory.mk 0 0 1 [Snapshot.mk 4 0 ⟨0, 0, 0, 0, 0, 0⟩])
          (Snapshot.mk 3 1 ⟨1, 2, 3, 4, 5, 6⟩) 7).snapshots ∧
      (appendSnapshot (StatsHistory.mk 0 0 1 [Snapshot.mk 4 0 ⟨0, 0, 0, 0, 0, 0⟩])
        (Snapshot.mk 3 1 ⟨1, 2, 3, 4, 5, 6⟩) 7).snapshots.Pairwise snapDateRel) ∧
    appendSnapshot (appendSnapshot (StatsHistory.mk 0 0 1 [Snapshot.mk 4 0 ⟨0, 0, 0, 0, 0, 0⟩])
        (Snapshot.mk 3 1 ⟨1, 2, 3, 4, 5, 6⟩) 8) (Snapshot.mk 3 2 ⟨9, 9, 9, 9, 9, 9⟩) 9 =
      appendSnapshot (StatsHistory.mk 0 0 1 [Snapshot.mk 4 0 ⟨0, 0, 0, 0, 0, 0⟩])
        (Snapshot.mk 3 2 ⟨9, 9, 9, 9, 9, 9⟩) 9 :=
  c3_snapshot_idempotence (StatsHistory.mk 0 0 1 [Snapshot.mk 4 0 ⟨0, 0, 0, 0, 0, 0⟩])
    (Snapshot.mk 3 1 ⟨1, 2, 3, 4, 5, 6⟩) (Snapshot.mk 3 1 ⟨1, 2, 3, 4, 5, 6⟩)
    (Snapshot.mk 3 2 ⟨9, 9, 9, 9, 9, 9⟩) 7 8 9 rfl

/-- C4 counterexample: for the day just before the genesis day the code's
int() truncation toward zero differs from the floor of the claimed
formula (code gives -112, the floor is -113), so the claim does not hold
for every calendar date. -/
theorem c4_counterexample :
    dateToEndEpoch 2020 11 30 ≠
      Int.fdiv (daysFromCivil 2020 11 30 * 86400 + 86399 -
        (genesisTimestamp : ℤ)) 384 := by decide

/-- C4 (amended): for every calendar date whose 23:59:59 UTC instant is at
or after genesis, date_to_end_epoch equals the floor of
(timestamp - genesis) / 384; for earlier dates the code truncates toward
zero instead of flooring. -/
theorem c4_end_epoch_floor (y m d : ℕ)
    (h : (genesisTimestamp : ℤ) ≤ daysFromCivil y m d * 86400 + 86399) :
    dateToEndEpoch y m d =
      Int.fdiv (daysFromCivil y m d * 86400 + 86399 -
        (genesisTimestamp : ℤ)) 384 := by
  have h0 : (0 : ℤ) ≤ daysFromCivil y m d * 86400 + 86399 -
      (genesisTimestamp : ℤ) := by omega
  show Int.tdiv _ 384 = _
  rw [Int.tdiv_eq_ediv h0 (by norm_num), Int.fdiv_eq_ediv _ (by norm_num)]

/-- C4 witness: the spec's example date 2024-03-15 reproduces the exact
integer 270112. -/
theorem c4_end_epoch_floor_witness :
    dateToEndEpoch 2024 3 15 =
      Int.fdiv (daysFromCivil 2024 3 15 * 86400 + 86399 -
        (genesisTimestamp : ℤ)) 384 ∧
    dateToEndEpoch 2024 3 15 = 270112 :=
  ⟨c4_end_epoch_floor 2024 3 15 (by decide), by decide⟩

/-- C5: every node record of the rollup satisfies
active_minipools + exited_minipools = total_minipools, where
active_minipools counts the distinct validators of the node present in the
aggregator's output, total_minipools counts the node's roster validators,
and exited_minipools is everything else. -/
theorem c5_minipool_count_invariant (pd : List PerfRecord)
    (roster : List RosterEntry) (fus : List FusakaEntry) (rec : NodeScore)
    (hmem : rec ∈ (calculateNodePerformanceScores pd roster fus).1) :
    (rec.activeMinipools : ℤ) + rec.exitedMinipools =
      (rec.totalMinipools : ℤ) ∧
    rec.activeMinipools =
      ((recordsFor pd rec.nodeAddress).map fun r => r.valId).dedup.length ∧
    rec.totalMinipools = totalMinipoolsFor roster rec.nodeAddress := by
  obtain ⟨addr, _, hrec⟩ := mem_nodeScores.mp hmem
  subst hrec
  refine ⟨?_, rfl, rfl⟩
  show (activeCountFor pd addr : ℤ) +
    ((totalMinipoolsFor roster addr : ℤ) - (activeCountFor pd addr : ℤ)) =
    (totalMinipoolsFor roster addr : ℤ)
  ring

/-- C5 witness: one node owning two roster validators, one of which is
active in the performance data. -/
theorem c5_minipool_count_invariant_witness :
    ((mkNodeScore [PerfRecord.mk 1 7 0 0 9 1 0 10 1 5 5 none
        (LastAtt.mk (some 20) (some 0) (some 1) AttStatus.found) 0 0]
        [RosterEntry.mk 7, RosterEntry.mk 7] [] 7).activeMinipools : ℤ) +
      (mkNodeScore [PerfRecord.mk 1 7 0 0 9 1 0 10 1 5 5 none
        (LastAtt.mk (some 20) (some 0) (some 1) AttStatus.found) 0 0]
        [RosterEntry.mk 7, RosterEntry.mk 7] [] 7).exitedMinipools =
      ((mkNodeScore [PerfRecord.mk 1 7 0 0 9 1 0 10 1 5 5 none
        (LastAtt.mk (some 20) (some 0) (some 1) AttStatus.found) 0 0]
        [RosterEntry.mk 7, RosterEntry.mk 7] [] 7).totalMinipools : ℤ) ∧
    (mkNodeScore [PerfRecord.mk 1 7 0 0 9 1 0 10 1 5 5 none
        (LastAtt.mk (some 20) (some 0) (some 1) AttStatus.found) 0 0]
        [RosterEntry.mk 7, RosterEntry.mk 7] [] 7).activeMinipools =
      ((recordsFor [PerfRecord.mk 1 7 0 0 9 1 0 10 1 5 5 none
        (LastAtt.mk (some 20) (some 0) (some 1) AttStatus.found) 0 0]
        (mkNodeScore [PerfRecord.mk 1 7 0 0 9 1 0 10 1 5 5 none
          (LastAtt.mk (some 20) (some 0) (some 1) AttStatus.found) 0 0]
          [RosterEntry.mk 7, RosterEntry.mk 7] [] 7).nodeAddress).map
        fun r => r.valId).dedup.length ∧
    (mkNodeScore [PerfRecord.mk 1 7 0 0 9 1 0 10 1 5 5 none
        (LastAtt.mk (some 20) (some 0) (some 1) AttStatus.found) 0 0]
        [RosterEntry.mk 7, RosterEntry.mk 7] [] 7).totalMinipools =
      totalMinipoolsFor [RosterEntry.mk 7, RosterEntry.mk 7]
        (mkNodeScore [PerfRecord.mk 1 7 0 0 9 1 0 10 1 5 5 none
          (LastAtt.mk (some 20) (some 0) (some 1) AttStatus.found) 0 0]
          [RosterEntry.mk 7, RosterEntry.mk 7] [] 7).nodeAddress :=
  c5_minipool_count_invariant
    [PerfRecord.mk 1 7 0 0 9 1 0 10 1 5 5 none
      (LastAtt.mk (some 20) (some 0) (some 1) AttStatus.found) 0 0]
    [RosterEntry.mk 7, RosterEntry.mk 7] []
    (mkNodeScore [PerfRecord.mk 1 7 0 0 9 1 0 10 1 5 5 none
      (LastAtt.mk (some 20) (some 0) (some 1) AttStatus.found) 0 0]
      [RosterEntry.mk 7, RosterEntry.mk 7] [] 7)
    (mem_nodeScores.mpr ⟨7, by decide, rfl⟩)

theorem nodeScore_mem_shape {pd : List PerfRecord} {roster : List RosterEntry}
    {fus : List FusakaEntry} {rec : NodeScore}
    (h : rec ∈ (calculateNodePerformanceScores pd roster fus).1) :
    rec.performanceScore = none ∨
      ∃ q, rec.performanceScore = some q ∧ 0 ≤ q := by
  obtain ⟨addr, _, hrec⟩ := mem_nodeScores.mp h
  subst hrec
  exact nodeScoreValue_shape pd addr

/-- C8: in the node list returned by the rollup, whenever a later entry
carries a numeric score, every earlier entry carries a numeric score at
least as large; hence scores are descending and every "N/A" node comes
after every numeric-scored node. -/
theorem c8_sort_order (pd : List PerfRecord) (roster : List RosterEntry)
    (fus : List FusakaEntry) :
    ((calculateNodePerformanceScores pd roster fus).1).Pairwise
      (fun a b => ∀ qb, b.performanceScore = some qb →
        ∃ qa, a.performanceScore = some qa ∧ qb ≤ qa) := by
  have hsorted := List.sorted_insertionSort nodeDescRel
    ((nodeAddrsOf roster).map
      (mkNodeScore pd roster (fus.map fun v => v.nodeAddress)))
  refine List.Pairwise.imp_of_mem ?_ hsorted
  intro a b ha hb hr qb hqb
  have ha2 : a ∈ (calculateNodePerformanceScores pd roster fus).1 := ha
  have hb2 : b ∈ (calculateNodePerformanceScores pd roster fus).1 := hb
  have hkb : nodeSortKey b = qb := by simp [nodeSortKey, hqb]
  have hr2 : nodeSortKey b ≤ nodeSortKey a := hr
  rcases nodeScore_mem_shape ha2 with han | ⟨qa, hqa, hqa0⟩
  · have hka : nodeSortKey a = -1 := by simp [nodeSortKey, han]
    have h0 : 0 ≤ qb := by
      rcases nodeScore_mem_shape hb2 with hbn | ⟨qb2, hqb2, h0⟩
      · rw [hbn] at hqb
        cases hqb
      · rw [hqb2] at hqb
        injection hqb with e
        exact e ▸ h0
    rw [hka, hkb] at hr2
    linarith
  · refine ⟨qa, hqa, ?_⟩
    have hka : nodeSortKey a = qa := by simp [nodeSortKey, hqa]
    rw [hka, hkb] at hr2
    exact hr2

/-- C7 counterexample: a node owning minipools but having no performance
records (no active validators) gets the descriptor with status no_data,
not the claimed older_than_10_days default. -/
theorem c7_counterexample :
    ((calculateNodePerformanceScores [] [RosterEntry.mk 1] []).1.map
      fun r => r.lastAttestation.status) = [AttStatus.noData] ∧
    AttStatus.noData ≠ AttStatus.olderThan 10 := by
  constructor
  · decide
  · decide

/-- C7 (amended): over a node's descriptor list, the selection returns a
maximal-epoch found/found_extended descriptor when one with an epoch
exists; otherwise a maximal-day-count older_than descriptor when one
exists; otherwise, for a nonempty list, the fixed older_than_10_days
descriptor; and for an empty list the no_data descriptor (not
older_than_10_days). -/
theorem c7_descriptor_selection (atts : List LastAtt) :
    ((∃ a ∈ atts, isFoundStatus a.status = true ∧ a.epoch.isSome = true) →
      getNodeLastAttestation atts ∈ atts ∧
      isFoundStatus (getNodeLastAttestation atts).status = true ∧
      (getNodeLastAttestation atts).epoch.isSome = true ∧
      ∀ b ∈ atts, isFoundStatus b.status = true →
        ∀ eb, b.epoch = some eb →
          eb ≤ epochKey (getNodeLastAttestation atts)) ∧
    (((∀ a ∈ atts, isFoundStatus a.status = false) ∧
        ∃ a ∈ atts, isOlderStatus a.status = true) →
      getNodeLastAttestation atts ∈ atts ∧
      ∃ n, (getNodeLastAttestation atts).status = AttStatus.olderThan n ∧
        ∀ b ∈ atts, ∀ m, b.status = AttStatus.olderThan m → m ≤ n) ∧
    ((atts ≠ [] ∧ (∀ a ∈ atts, isFoundStatus a.status = false) ∧
        (∀ a ∈ atts, isOlderStatus a.status = false)) →
      getNodeLastAttestation atts = olderThan10Att) ∧
    (atts = [] → getNodeLastAttestation atts = noDataAtt) := by
  refine ⟨?_, ?_, ?_, ?_⟩
  · rintro ⟨a, ha, hfnd, hsome⟩
    have hne : atts ≠ [] := List.ne_nil_of_mem ha
    have hmf : a ∈ atts.filter (fun x => isFoundStatus x.status) :=
      List.mem_filter.mpr ⟨ha, hfnd⟩
    have hmv : a ∈ (atts.filter fun x => isFoundStatus x.status).filter
        (fun x => x.epoch.isSome) :=
      List.mem_filter.mpr ⟨hmf, hsome⟩
    have hfne := List.ne_nil_of_mem hmf
    have hvne := List.ne_nil_of_mem hmv
    have hres : getNodeLastAttestation atts =
        maxByKeyFirst epochKey
          (((atts.filter fun x => isFoundStatus x.status).filter
            (fun x => x.epoch.isSome)).headD noDataAtt)
          ((atts.filter fun x => isFoundStatus x.status).filter
            (fun x => x.epoch.isSome)).tail := by
      unfold getNodeLastAttestation
      rw [if_neg hne, if_neg hfne, if_neg hvne]
    rcases hv : (atts.filter fun x => isFoundStatus x.status).filter
        (fun x => x.epoch.isSome) with _ | ⟨v, vs⟩
    · exact absurd hv hvne
    · rw [hv] at hres
      simp only [List.headD_cons, List.tail_cons] at hres
      have hmem : getNodeLastAttestation atts ∈
          (atts.filter fun x => isFoundStatus x.status).filter
            (fun x => x.epoch.isSome) := by
        rw [hv, hres]
        exact maxByKeyFirst_mem epochKey vs v
      have hmem2 := List.mem_filter.mp hmem
      have hmem3 := List.mem_filter.mp hmem2.1
      refine ⟨hmem3.1, hmem3.2, hmem2.2, ?_⟩
      intro b hb hbf eb hbe
      have hbv : b ∈ (atts.filter fun x => isFoundStatus x.status).filter
          (fun x => x.epoch.isSome) := by
        refine List.mem_filter.mpr ⟨List.mem_filter.mpr ⟨hb, hbf⟩, ?_⟩
        rw [hbe]
        rfl
      rw [hv] at hbv
      have hle := maxByKeyFirst_le epochKey vs v b hbv
      have hkb : epochKey b = eb := by simp [epochKey, hbe]
      rw [hkb, ← hres] at hle
      exact hle
  · rintro ⟨hnofound, a, ha, hold⟩
    have hne : atts ≠ [] := List.ne_nil_of_mem ha
    have hfnil : atts.filter (fun x => isFoundStatus x.status) = [] := by
      rw [List.filter_eq_nil_iff]
      intro x hx
      rw [hnofound x hx]
      simp
    have hmo : a ∈ atts.filter (fun x => isOlderStatus x.status) :=
      List.mem_filter.mpr ⟨ha, hold⟩
    have hone := List.ne_nil_of_mem hmo
    have hres : getNodeLastAttestation atts =
        maxByKeyFirst daysKey
          ((atts.filter fun x => isOlderStatus x.status).headD noDataAtt)
          (atts.filter fun x => isOlderStatus x.status).tail := by
      unfold getNodeLastAttestation
      rw [if_neg hne, if_pos hfnil, if_neg hone]
    rcases ho : atts.filter (fun x => isOlderStatus x.status)
      with _ | ⟨o, os⟩
    · exact absurd ho hone
    · rw [ho] at hres
      simp only [List.headD_cons, List.tail_cons] at hres
      have hmem : getNodeLastAttestation atts ∈
          atts.filter (fun x => isOlderStatus x.status) := by
        rw [ho, hres]
        exact maxByKeyFirst_mem daysKey os o
      have hmem2 := List.mem_filter.mp hmem
      refine ⟨hmem2.1, ?_⟩
      rcases hstat : (getNodeLastAttestation atts).status with _ | _ | n | _ | _
        <;> rw [hstat] at hmem2 <;> simp [isOlderStatus] at hmem2
      refine ⟨n, rfl, ?_⟩
      intro b hb m hbm
      have hbo : b ∈ atts.filter (fun x => isOlderStatus x.status) := by
        refine List.mem_filter.mpr ⟨hb, ?_⟩
        rw [hbm]
        rfl
      rw [ho] at hbo
      have hle := maxByKeyFirst_le daysKey os o b hbo
      have hkb : daysKey b = m := by simp [daysKey, hbm]
      have hkr : daysKey (getNodeLastAttestation atts) = n := by
        simp [daysKey, hstat]
      rw [hkb, ← hres, hkr] at hle
      exact hle
  · rintro ⟨hne, hnofound, hnoolder⟩
    have hfnil : atts.filter (fun x => isFoundStatus x.status) = [] := by
      rw [List.filter_eq_nil_iff]
      intro x hx
      rw [hnofound x hx]
      simp
    have honil : atts.filter (fun x => isOlderStatus x.status) = [] := by
      rw [List.filter_eq_nil_iff]
      intro x hx
      rw [hnoolder x hx]
      simp
    unfold getNodeLastAttestation
    rw [if_neg hne, if_pos hfnil, if_pos honil]
  · intro h
    rw [h]
    rfl

/-- C7 witness: a list holding one found descriptor with an epoch and one
older_than descriptor, exercising the first selection rule with its
hypothesis discharged. -/
theorem c7_descriptor_selection_witness :
    getNodeLastAttestation [LastAtt.mk (some 9) (some 0) (some 1) AttStatus.found,
        LastAtt.mk none none none (AttStatus.olderThan 45)] ∈
      [LastAtt.mk (some 9) (some 0) (some 1) AttStatus.found,
        LastAtt.mk none none none (AttStatus.olderThan 45)] ∧
    isFoundStatus (getNodeLastAttestation
      [LastAtt.mk (some 9) (some 0) (some 1) AttStatus.found,
        LastAtt.mk none none none (AttStatus.olderThan 45)]).status = true ∧
    (getNodeLastAttestation
      [LastAtt.mk (some 9) (some 0) (some 1) AttStatus.found,
        LastAtt.mk none none none (AttStatus.olderThan 45)]).epoch.isSome = true ∧
    ∀ b ∈ [LastAtt.mk (some 9) (some 0) (some 1) AttStatus.found,
        LastAtt.mk none none none (AttStatus.olderThan 45)],
      isFoundStatus b.status = true →
      ∀ eb, b.epoch = some eb →
        eb ≤ epochKey (getNodeLastAttestation
          [LastAtt.mk (some 9) (some 0) (some 1) AttStatus.found,
            LastAtt.mk none none none (AttStatus.olderThan 45)]) :=
  (c7_descriptor_selection
    [LastAtt.mk (some 9) (some 0) (some 1) AttStatus.found,
      LastAtt.mk none none none (AttStatus.olderThan 45)]).1 (by decide)

/-- C6: within a batch, a validator's id is passed to the extended history
search exactly when its window row carries a null last_attestation_epoch;
a validator with an in-window attestation is never handed to
find_last_attestation_extended and its record's descriptor status is
found. -/
theorem c6_extended_search_monotonicity (rows : List Row)
    (batch : List BatchValidator) (extRows : List ExtRow)
    (oldestEpoch totalDays : Option ℕ) (endEpoch latestEpoch : ℕ)
    (hnd : (rows.map fun r => r.valId).Nodup) :
    ∀ row ∈ rows,
      (row.valId ∈ validatorsNeedingExtendedSearch rows ↔
        row.lastAttestationEpoch = none) ∧
      (∀ e, row.lastAttestationEpoch = some e →
        row.valId ∉ validatorsNeedingExtendedSearch rows ∧
        ∀ rec ∈ processBatch rows batch extRows oldestEpoch totalDays
            endEpoch latestEpoch,
          rec.valId = row.valId →
            rec.lastAttestation.status = AttStatus.found) := by
  intro row hrow
  have hinj := List.inj_on_of_nodup_map hnd
  have hiff : row.valId ∈ validatorsNeedingExtendedSearch rows ↔
      row.lastAttestationEpoch = none := by
    constructor
    · intro hmem
      obtain ⟨row2, hrow2, hvid⟩ := List.mem_map.mp hmem
      have hrow2f := List.mem_filter.mp hrow2
      have heq : row2 = row := hinj hrow2f.1 hrow hvid
      rw [← heq]
      exact of_decide_eq_true hrow2f.2
    · intro hnone
      exact List.mem_map.mpr
        ⟨row, List.mem_filter.mpr ⟨hrow, by simp [hnone]⟩, rfl⟩
  refine ⟨hiff, ?_⟩
  intro e he
  constructor
  · intro hmem
    rw [hiff.mp hmem] at he
    cases he
  · intro rec hrec hvid
    obtain ⟨row2, hrow2, hfe⟩ := List.mem_filterMap.mp hrec
    rcases hfind : batch.find? (fun v => decide (v.valId = row2.valId))
      with _ | v
    · rw [hfind] at hfe
      cases hfe
    · rw [hfind] at hfe
      injection hfe with hfe
      have hr2 : row2.valId = row.valId := by
        rw [← hfe] at hvid
        exact hvid
      have heq : row2 = row := hinj hrow2 hrow hr2
      subst heq
      rw [← hfe]
      show (lastAttInfoFor row2 _ _ _).status = AttStatus.found
      rw [lastAttInfoFor, he]

/-- C6 witness: a two-row batch, one row with an in-window attestation and
one silent row; the silent validator is in the extended-search list, the
attesting one is not and its record is tagged found. -/
theorem c6_extended_search_monotonicity_witness :
    ((Row.mk 1 9 1 0 5 5 (some 40) (some 32000000000) (some 32000000000)).valId ∈
        validatorsNeedingExtendedSearch
          [Row.mk 1 9 1 0 5 5 (some 40) (some 32000000000) (some 32000000000),
            Row.mk 2 0 0 0 5 0 none none none] ↔
      (Row.mk 1 9 1 0 5 5 (some 40) (some 32000000000)
        (some 32000000000)).lastAttestationEpoch = none) ∧
    (∀ e, (Row.mk 1 9 1 0 5 5 (some 40) (some 32000000000)
        (some 32000000000)).lastAttestationEpoch = some e →
      (Row.mk 1 9 1 0 5 5 (some 40) (some 32000000000)
          (some 32000000000)).valId ∉
        validatorsNeedingExtendedSearch
          [Row.mk 1 9 1 0 5 5 (some 40) (some 32000000000) (some 32000000000),
            Row.mk 2 0 0 0 5 0 none none none] ∧
      ∀ rec ∈ processBatch
          [Row.mk 1 9 1 0 5 5 (some 40) (some 32000000000) (some 32000000000),
            Row.mk 2 0 0 0 5 0 none none none]
          [BatchValidator.mk 1 7 0 0, BatchValidator.mk 2 7 0 0]
          [ExtRow.mk 2 (some 11)] (some 10) (some 100) 50 50,
        rec.valId = (Row.mk 1 9 1 0 5 5 (some 40) (some 32000000000)
          (some 32000000000)).valId →
          rec.lastAttestation.status = AttStatus.found) :=
  c6_extended_search_monotonicity
    [Row.mk 1 9 1 0 5 5 (some 40) (some 32000000000) (some 32000000000),
      Row.mk 2 0 0 0 5 0 none none none]
    [BatchValidator.mk 1 7 0 0, BatchValidator.mk 2 7 0 0]
    [ExtRow.mk 2 (some 11)] (some 10) (some 100) 50 50 (by decide)
    (Row.mk 1 9 1 0 5 5 (some 40) (some 32000000000) (some 32000000000))
    (by decide)

/-- C1: the aggregator presets a validator's score to 0% exactly when its
window row has a null last_attestation_epoch, and for every node with at
least one active validator the rollup reports exactly 0.0 when any of the
node's records carries the preset 0% score — regardless of the other
validators' totals — and otherwise
round2(100 * total_earned / (total_earned + total_missed)) with 0/0 = 0. -/
theorem c1_all_or_nothing (rows : List Row) (batch : List BatchValidator)
    (extRows : List ExtRow) (oldestEpoch totalDays : Option ℕ)
    (endEpoch latestEpoch : ℕ) (pd : List PerfRecord)
    (roster : List RosterEntry) (fus : List FusakaEntry)
    (hpd : ∀ r ∈ pd, r.totalPossibleRewards =
      r.totalEarnedRewards + r.totalMissedRewards) :
    (∀ rec ∈ processBatch rows batch extRows oldestEpoch totalDays
        endEpoch latestEpoch,
      ∃ row ∈ rows, rec.valId = row.valId ∧
        (rec.performanceScore = some 0 ↔ row.lastAttestationEpoch = none) ∧
        rec.totalPossibleRewards =
          rec.totalEarnedRewards + rec.totalMissedRewards) ∧
    (∀ rec ∈ (calculateNodePerformanceScores pd roster fus).1,
      0 < rec.activeMinipools →
        ((∃ r ∈ pd, r.nodeAddress = rec.nodeAddress ∧
            r.performanceScore = some 0) →
          rec.performanceScore = some 0) ∧
        ((¬ ∃ r ∈ pd, r.nodeAddress = rec.nodeAddress ∧
            r.performanceScore = some 0) →
          rec.performanceScore = some (round2
            (if 0 < earnedFor pd rec.nodeAddress + missedFor pd rec.nodeAddress
              then 100 * ((earnedFor pd rec.nodeAddress : ℕ) : ℚ) /
                (((earnedFor pd rec.nodeAddress : ℕ) : ℚ) +
                  ((missedFor pd rec.nodeAddress : ℕ) : ℚ))
              else 0)))) := by
  constructor
  · intro rec hrec
    obtain ⟨row, hrow, hfe⟩ := List.mem_filterMap.mp hrec
    rcases hfind : batch.find? (fun v => decide (v.valId = row.valId))
      with _ | v
    · rw [hfind] at hfe
      cases hfe
    · rw [hfind] at hfe
      injection hfe with hfe
      refine ⟨row, hrow, ?_, ?_, ?_⟩
      · rw [← hfe]
        rfl
      · rw [← hfe]
        show (if row.lastAttestationEpoch = none then some (0 : ℚ) else none)
          = some 0 ↔ _
        by_cases hn : row.lastAttestationEpoch = none
        · rw [if_pos hn]
          exact ⟨fun _ => hn, fun _ => rfl⟩
        · rw [if_neg hn]
          exact ⟨fun h => absurd h (by simp), fun h => absurd h hn⟩
      · rw [← hfe]
        rfl
  · intro rec hrec hact
    obtain ⟨addr, _, hms⟩ := mem_nodeScores.mp hrec
    subst hms
    have hact2 : 0 < activeCountFor pd addr := hact
    have hshow : (mkNodeScore pd roster (fus.map fun v => v.nodeAddress)
        addr).performanceScore = nodeScoreValue pd addr := rfl
    have haddr : (mkNodeScore pd roster (fus.map fun v => v.nodeAddress)
        addr).nodeAddress = addr := rfl
    rw [hshow, haddr]
    constructor
    · rintro ⟨r, hr, hra, hrz⟩
      have hz : hasZeroScoreValidator pd addr = true := by
        unfold hasZeroScoreValidator
        rw [List.any_eq_true]
        exact ⟨r, List.mem_filter.mpr ⟨hr, by simp [hra]⟩, by simp [hrz]⟩
      unfold nodeScoreValue
      rw [if_pos hact2, if_pos hz]
    · intro hnz
      have hz : hasZeroScoreValidator pd addr = false := by
        rcases Bool.eq_false_or_eq_true (hasZeroScoreValidator pd addr)
          with h | h
        swap
        · exact h
        · exfalso
          unfold hasZeroScoreValidator at h
          rw [List.any_eq_true] at h
          obtain ⟨r, hrmem, hrp⟩ := h
          have hrf := List.mem_filter.mp hrmem
          exact hnz ⟨r, hrf.1, of_decide_eq_true hrf.2,
            of_decide_eq_true hrp⟩
      have harg : (if 0 < possibleFor pd addr then
          ((earnedFor pd addr : ℕ) : ℚ) /
            ((possibleFor pd addr : ℕ) : ℚ) * 100 else 0) =
          (if 0 < earnedFor pd addr + missedFor pd addr then
            100 * ((earnedFor pd addr : ℕ) : ℚ) /
              (((earnedFor pd addr : ℕ) : ℚ) +
                ((missedFor pd addr : ℕ) : ℚ))
          else 0) := by
        rw [possibleFor_eq_earned_add_missed hpd]
        by_cases hp : 0 < earnedFor pd addr + missedFor pd addr
        · rw [if_pos hp, if_pos hp]
          push_cast
          ring
        · rw [if_neg hp, if_neg hp]
      unfold nodeScoreValue
      rw [if_pos hact2, if_neg (by simp [hz]), harg]

/-- C1 witness: the spec's example — validator A (earned 900, missed 100)
and silent validator B (preset 0% score) on node 7; B zeroes the node. -/
theorem c1_all_or_nothing_witness :
    (∀ rec ∈ processBatch [] [] [] none none 0 0,
      ∃ row ∈ ([] : List Row), rec.valId = row.valId ∧
        (rec.performanceScore = some 0 ↔ row.lastAttestationEpoch = none) ∧
        rec.totalPossibleRewards =
          rec.totalEarnedRewards + rec.totalMissedRewards) ∧
    (∀ rec ∈ (calculateNodePerformanceScores
        [PerfRecord.mk 1 7 0 0 900 100 0 1000 100 5 5 none
          (LastAtt.mk (some 20) (some 0) (some 1) AttStatus.found) 0 0,
        PerfRecord.mk 2 7 0 0 0 0 0 0 0 5 0 (some 0)
          (LastAtt.mk none none none (AttStatus.olderThan 45)) 0 0]
        [RosterEntry.mk 7] []).1,
      0 < rec.activeMinipools →
        ((∃ r ∈ [PerfRecord.mk 1 7 0 0 900 100 0 1000 100 5 5 none
            (LastAtt.mk (some 20) (some 0) (some 1) AttStatus.found) 0 0,
          PerfRecord.mk 2 7 0 0 0 0 0 0 0 5 0 (some 0)
            (LastAtt.mk none none none (AttStatus.olderThan 45)) 0 0],
            r.nodeAddress = rec.nodeAddress ∧
            r.performanceScore = some 0) →
          rec.performanceScore = some 0) ∧
        ((¬ ∃ r ∈ [PerfRecord.mk 1 7 0 0 900 100 0 1000 100 5 5 none
            (LastAtt.mk (some 20) (some 0) (some 1) AttStatus.found) 0 0,
          PerfRecord.mk 2 7 0 0 0 0 0 0 0 5 0 (some 0)
            (LastAtt.mk none none none (AttStatus.olderThan 45)) 0 0],
            r.nodeAddress = rec.nodeAddress ∧
            r.performanceScore = some 0) →
          rec.performanceScore = some (round2
            (if 0 < earnedFor [PerfRecord.mk 1 7 0 0 900 100 0 1000 100 5 5 none
                (LastAtt.mk (some 20) (some 0) (some 1) AttStatus.found) 0 0,
              PerfRecord.mk 2 7 0 0 0 0 0 0 0 5 0 (some 0)
                (LastAtt.mk none none none (AttStatus.olderThan 45)) 0 0]
                rec.nodeAddress +
              missedFor [PerfRecord.mk 1 7 0 0 900 100 0 1000 100 5 5 none
                (LastAtt.mk (some 20) (some 0) (some 1) AttStatus.found) 0 0,
              PerfRecord.mk 2 7 0 0 0 0 0 0 0 5 0 (some 0)
                (LastAtt.mk none none none (AttStatus.olderThan 45)) 0 0]
                rec.nodeAddress
              then 100 * ((earnedFor [PerfRecord.mk 1 7 0 0 900 100 0 1000 100 5 5 none
                (LastAtt.mk (some 20) (some 0) (some 1) AttStatus.found) 0 0,
              PerfRecord.mk 2 7 0 0 0 0 0 0 0 5 0 (some 0)
                (LastAtt.mk none none none (AttStatus.olderThan 45)) 0 0]
                rec.nodeAddress : ℕ) : ℚ) /
                (((earnedFor [PerfRecord.mk 1 7 0 0 900 100 0 1000 100 5 5 none
                  (LastAtt.mk (some 20) (some 0) (some 1) AttStatus.found) 0 0,
                PerfRecord.mk 2 7 0 0 0 0 0 0 0 5 0 (some 0)
                  (LastAtt.mk none none none (AttStatus.olderThan 45)) 0 0]
                  rec.nodeAddress : ℕ) : ℚ) +
                  ((missedFor [PerfRecord.mk 1 7 0 0 900 100 0 1000 100 5 5 none
                    (LastAtt.mk (some 20) (some 0) (some 1) AttStatus.found) 0 0,
                  PerfRecord.mk 2 7 0 0 0 0 0 0 0 5 0 (some 0)
                    (LastAtt.mk none none none (AttStatus.olderThan 45)) 0 0]
                    rec.nodeAddress : ℕ) : ℚ))
              else 0)))) :=
  c1_all_or_nothing [] [] [] none none 0 0
    [PerfRecord.mk 1 7 0 0 900 100 0 1000 100 5 5 none
      (LastAtt.mk (some 20) (some 0) (some 1) AttStatus.found) 0 0,
    PerfRecord.mk 2 7 0 0 0 0 0 0 0 5 0 (some 0)
      (LastAtt.mk none none none (AttStatus.olderThan 45)) 0 0]
    [RosterEntry.mk 7] [] (by decide)

theorem mem_nodesToRemove {pd : List PerfRecord} {roster : List RosterEntry}
    {fusAddrs : List ℕ} {addr : ℕ} :
    addr ∈ nodesToRemove pd roster fusAddrs ↔
      addr ∈ nodeAddrsOf roster ∧ addr ∈ fusAddrs ∧
        fusakaRecovered (computedLastAttFor pd addr) = true := by
  unfold nodesToRemove
  rw [List.mem_filter]
  constructor
  · rintro ⟨h1, h2⟩
    rw [Bool.and_eq_true] at h2
    exact ⟨h1, of_decide_eq_true h2.1, h2.2⟩
  · rintro ⟨h1, h2, h3⟩
    refine ⟨h1, ?_⟩
    rw [Bool.and_eq_true]
    exact ⟨decide_eq_true h2, h3⟩

theorem nodeScore_lastAtt {pd : List PerfRecord} {roster : List RosterEntry}
    {fus : List FusakaEntry} {rec : NodeScore}
    (h : rec ∈ (calculateNodePerformanceScores pd roster fus).1) :
    rec.lastAttestation =
      reportedLastAttFor (fus.map fun v => v.nodeAddress) pd
        rec.nodeAddress := by
  obtain ⟨addr, _, hrec⟩ := mem_nodeScores.mp h
  subst hrec
  rfl

/-- C2: for a node tracked in the persistent Fusaka set whose node record
is produced by the rollup: if its freshly computed descriptor has status
found/found_extended with an epoch strictly past the fork, the node is
dropped from the set in the same run and its reported descriptor is the
computed one; otherwise every entry for the node stays in the set and the
reported descriptor is the fixed fusaka_death record pinned at the fork
epoch.  The run only ever removes recovered nodes and never adds
entries. -/
theorem c2_fusaka_tracker (pd : List PerfRecord) (roster : List RosterEntry)
    (fus : List FusakaEntry) (f : FusakaEntry) (hf : f ∈ fus)
    (hroster : f.nodeAddress ∈ nodeAddrsOf roster) :
    (fusakaRecovered (computedLastAttFor pd f.nodeAddress) = true →
      (∀ g ∈ (calculateNodePerformanceScores pd roster fus).2,
        g.nodeAddress ≠ f.nodeAddress) ∧
      (∀ rec ∈ (calculateNodePerformanceScores pd roster fus).1,
        rec.nodeAddress = f.nodeAddress →
          rec.lastAttestation = computedLastAttFor pd f.nodeAddress)) ∧
    (fusakaRecovered (computedLastAttFor pd f.nodeAddress) = false →
      f ∈ (calculateNodePerformanceScores pd roster fus).2 ∧
      (∀ rec ∈ (calculateNodePerformanceScores pd roster fus).1,
        rec.nodeAddress = f.nodeAddress →
          rec.lastAttestation = fusakaDeathAtt
            (computedLastAttFor pd f.nodeAddress).ageEpochs)) ∧
    (∃ rec ∈ (calculateNodePerformanceScores pd roster fus).1,
      rec.nodeAddress = f.nodeAddress) ∧
    (∀ g ∈ (calculateNodePerformanceScores pd roster fus).2, g ∈ fus) ∧
    (∀ g ∈ fus, g ∉ (calculateNodePerformanceScores pd roster fus).2 →
      g.nodeAddress ∈ nodeAddrsOf roster ∧
      fusakaRecovered (computedLastAttFor pd g.nodeAddress) = true) := by
  have hfa : f.nodeAddress ∈ fus.map fun v => v.nodeAddress :=
    List.mem_map.mpr ⟨f, hf, rfl⟩
  have hout2 : (calculateNodePerformanceScores pd roster fus).2 =
      if nodesToRemove pd roster (fus.map fun v => v.nodeAddress) = []
      then fus
      else fus.filter fun v => decide
        (v.nodeAddress ∉ nodesToRemove pd roster
          (fus.map fun v => v.nodeAddress)) := rfl
  refine ⟨?_, ?_, ?_, ?_, ?_⟩
  · intro hrec
    have hrm : f.nodeAddress ∈ nodesToRemove pd roster
        (fus.map fun v => v.nodeAddress) :=
      mem_nodesToRemove.mpr ⟨hroster, hfa, hrec⟩
    have hne := List.ne_nil_of_mem hrm
    constructor
    · intro g hg
      rw [hout2, if_neg hne] at hg
      have hg2 := List.mem_filter.mp hg
      intro heq
      have := of_decide_eq_true hg2.2
      rw [heq] at this
      exact this hrm
    · intro rec hmem heq
      rw [nodeScore_lastAtt hmem, heq]
      unfold reportedLastAttFor
      rw [if_pos hfa, if_pos hrec]
  · intro hrec
    have hnrm : f.nodeAddress ∉ nodesToRemove pd roster
        (fus.map fun v => v.nodeAddress) := by
      intro hmem
      have := (mem_nodesToRemove.mp hmem).2.2
      rw [hrec] at this
      cases this
    constructor
    · rw [hout2]
      by_cases hempty : nodesToRemove pd roster
          (fus.map fun v => v.nodeAddress) = []
      · rw [if_pos hempty]
        exact hf
      · rw [if_neg hempty]
        exact List.mem_filter.mpr ⟨hf, decide_eq_true hnrm⟩
    · intro rec hmem heq
      rw [nodeScore_lastAtt hmem, heq]
      unfold reportedLastAttFor
      rw [if_pos hfa, if_neg (by simp [hrec])]
  · refine ⟨mkNodeScore pd roster (fus.map fun v => v.nodeAddress)
      f.nodeAddress, ?_, rfl⟩
    exact mem_nodeScores.mpr ⟨f.nodeAddress, hroster, rfl⟩
  · intro g hg
    rw [hout2] at hg
    by_cases hempty : nodesToRemove pd roster
        (fus.map fun v => v.nodeAddress) = []
    · rw [if_pos hempty] at hg
      exact hg
    · rw [if_neg hempty] at hg
      exact (List.mem_filter.mp hg).1
  · intro g hg hgout
    rw [hout2] at hgout
    by_cases hempty : nodesToRemove pd roster
        (fus.map fun v => v.nodeAddress) = []
    · rw [if_pos hempty] at hgout
      exact absurd hg hgout
    · rw [if_neg hempty] at hgout
      have : g.nodeAddress ∈ nodesToRemove pd roster
          (fus.map fun v => v.nodeAddress) := by
        by_contra hn
        exact hgout (List.mem_filter.mpr ⟨hg, decide_eq_true hn⟩)
      have h2 := mem_nodesToRemove.mp this
      exact ⟨h2.1, h2.2.2⟩

/-- C2 witness: node 7 is tracked and its computed descriptor (found at
epoch 20, before the fork) does not qualify as recovery: the entry stays
in the set and the reported descriptor is the pinned fusaka_death
record. -/
theorem c2_fusaka_tracker_witness :
    FusakaEntry.mk 7 411392 1764798551 ∈
      (calculateNodePerformanceScores
        [PerfRecord.mk 1 7 0 0 900 100 0 1000 100 5 5 none
          (LastAtt.mk (some 20) (some 0) (some 1) AttStatus.found) 0 0]
        [RosterEntry.mk 7] [FusakaEntry.mk 7 411392 1764798551]).2 ∧
    (∀ rec ∈ (calculateNodePerformanceScores
        [PerfRecord.mk 1 7 0 0 900 100 0 1000 100 5 5 none
          (LastAtt.mk (some 20) (some 0) (some 1) AttStatus.found) 0 0]
        [RosterEntry.mk 7] [FusakaEntry.mk 7 411392 1764798551]).1,
      rec.nodeAddress = (FusakaEntry.mk 7 411392 1764798551).nodeAddress →
        rec.lastAttestation = fusakaDeathAtt
          (computedLastAttFor
            [PerfRecord.mk 1 7 0 0 900 100 0 1000 100 5 5 none
              (LastAtt.mk (some 20) (some 0) (some 1) AttStatus.found) 0 0]
            (FusakaEntry.mk 7 411392 1764798551).nodeAddress).ageEpochs) :=
  (c2_fusaka_tracker
    [PerfRecord.mk 1 7 0 0 900 100 0 1000 100 5 5 none
      (LastAtt.mk (some 20) (some 0) (some 1) AttStatus.found) 0 0]
    [RosterEntry.mk 7] [FusakaEntry.mk 7 411392 1764798551]
    (FusakaEntry.mk 7 411392 1764798551) (by decide) (by decide)).2.1
    (by decide)

/-- C10: the daily snapshot counts a validator as undercollateralised
exactly when its latest balance in ETH is strictly between 0 and 31.9 —
zero balances are excluded — while the per-report rollup counts every
balance strictly below 31.9 ETH, zero included. -/
theorem c10_zero_balance_exclusion (performanceData : List SnapPerf)
    (validatorStatuses : List (ℕ × ValStatus))
    (fusakaDeathCount endEpoch : ℕ) (pd : List PerfRecord)
    (roster : List RosterEntry) (fus : List FusakaEntry) :
    (calculateSnapshotMetrics performanceData validatorStatuses
        fusakaDeathCount endEpoch).below31_9Eth =
      performanceData.countP (fun p =>
        decide (0 < snapBalanceEth p ∧ snapBalanceEth p < 31.9)) ∧
    (∀ rec ∈ (calculateNodePerformanceScores pd roster fus).1,
      rec.validatorsBelow32Eth =
        (recordsFor pd rec.nodeAddress).countP
          (fun r => decide (r.valBalanceEth < 31.9))) ∧
    (∀ p : SnapPerf, p.latestBalance = 0 →
      ¬ (0 < snapBalanceEth p ∧ snapBalanceEth p < 31.9) ∧
        snapBalanceEth p < 31.9) := by
  refine ⟨?_, ?_, ?_⟩
  · show performanceData.countP (fun p =>
      decide (snapBalanceEth p < 31.9) && decide (0 < snapBalanceEth p)) = _
    apply List.countP_congr
    intro p _
    by_cases h1 : snapBalanceEth p < 31.9 <;>
      by_cases h2 : 0 < snapBalanceEth p <;> simp [h1, h2]
  · intro rec hmem
    obtain ⟨addr, _, hrec⟩ := mem_nodeScores.mp hmem
    subst hrec
    rfl
  · intro p hp
    have hz : snapBalanceEth p = 0 := by
      unfold snapBalanceEth
      rw [hp]
      norm_num
    constructor
    · rintro ⟨h1, _⟩
      rw [hz] at h1
      exact lt_irrefl 0 h1
    · rw [hz]
      norm_num

/-- C10 witness: a validator with recorded balance zero is below 31.9 ETH
for the rollup's predicate but is not counted by the snapshot metric. -/
theorem c10_zero_balance_exclusion_witness :
    ¬ (0 < snapBalanceEth (SnapPerf.mk 1 0 0 0 0 5 none 0) ∧
        snapBalanceEth (SnapPerf.mk 1 0 0 0 0 5 none 0) < 31.9) ∧
      snapBalanceEth (SnapPerf.mk 1 0 0 0 0 5 none 0) < 31.9 :=
  (c10_zero_balance_exclusion [] [] 0 0 [] [] []).2.2
    (SnapPerf.mk 1 0 0 0 0 5 none 0) rfl

/-- C8 witness: the sort-order property at a concrete rollup with a
90%-scored node, a 50%-scored node and an N/A node. -/
theorem c8_sort_order_witness :
    ((calculateNodePerformanceScores
      [PerfRecord.mk 1 7 0 0 900 100 0 1000 100 5 5 none
        (LastAtt.mk (some 20) (some 0) (some 1) AttStatus.found) 0 0,
      PerfRecord.mk 3 8 0 0 500 500 0 1000 500 5 5 none
        (LastAtt.mk (some 20) (some 0) (some 1) AttStatus.found) 0 0]
      [RosterEntry.mk 8, RosterEntry.mk 7, RosterEntry.mk 9] []).1).Pairwise
      (fun a b => ∀ qb, b.performanceScore = some qb →
        ∃ qa, a.performanceScore = some qa ∧ qb ≤ qa) :=
  c8_sort_order
    [PerfRecord.mk 1 7 0 0 900 100 0 1000 100 5 5 none
      (LastAtt.mk (some 20) (some 0) (some 1) AttStatus.found) 0 0,
    PerfRecord.mk 3 8 0 0 500 500 0 1000 500 5 5 none
      (LastAtt.mk (some 20) (some 0) (some 1) AttStatus.found) 0 0]
    [RosterEntry.mk 8, RosterEntry.mk 7, RosterEntry.mk 9] []
